import Mathlib

/-!
Verification of the record-linkage core of `src/app.py` (recipe-checker).

The embedding models Python strings as `List Char`, Python scalar values as
`PyVal` (string / int / None / float nan — the values the Streamlit app and
pandas can feed into the normalizers), exact arithmetic as `ℚ`/`ℤ`, and the
exceptions that `extract_features` can raise as an explicit `Except` result.

Modeling notes, stated once here:
* `re` character classes `\d`/`\D` and `\s` are modeled on their ASCII parts
  (the repository's data is ASCII digits plus Cyrillic letters, none of which
  are whitespace or digits in any reading).
* `str.lower` is modeled on ASCII and Cyrillic (identity elsewhere); every
  character the allow-list of `normalize_dob` can keep is covered.
* `datetime.strftime("%Y-%m-%d")` is modeled as zero-padding the year to four
  digits (the canonical `YYYY-MM-DD` form; exact for every year ≥ 1000).
* `fuzzywuzzy` is embedded per its pure-Python backend, i.e. `difflib`'s
  `SequenceMatcher` (used whenever python-Levenshtein is not installed; the
  repository pins no backend).  The autojunk heuristic of `difflib` only
  affects second strings of length ≥ 200 and is not modeled; every fuzzy
  comparison evaluated below is far shorter.
-/

/-- Python strings, as lists of characters. -/
abbrev Str := List Char

/-- The Python scalar values relevant to the core: strings, ints, `None`,
and `float("nan")` (the pandas missing marker). -/
inductive PyVal where
  | pstr (s : Str)
  | pint (n : ℤ)
  | pnone
  | pnan
  deriving DecidableEq

/-- Exceptions `extract_features` can raise: `KeyError` carries the missing
dict key, `TypeError` (from `-` on unsupported operands) carries the two
operand type names — exactly the payloads CPython attaches. -/
inductive PyErr where
  | keyError (key : Str)
  | typeError (lhs rhs : Str)
  deriving DecidableEq

/-- A numeric value produced by Python arithmetic on quantities: an exact
number, or a float nan (nan propagates through `-` and `abs`). -/
inductive PyNum where
  | rat (q : ℚ)
  | nan
  deriving DecidableEq

/-- Python type name, as used in TypeError messages. -/
def pyTypeName : PyVal → Str
  | .pstr _ => "str".data
  | .pint _ => "int".data
  | .pnone => "NoneType".data
  | .pnan => "float".data

/-- The digit character for `k` (`k < 10` in every use). -/
def dChar (k : Nat) : Char := Char.ofNat (48 + k)

/-- Numeric value of an ASCII digit character. -/
def digitVal (c : Char) : Nat := c.toNat - 48

/-- ASCII digit test — the model of the regex classes `\d` and `[0-9]`. -/
def isD (c : Char) : Bool := c.isDigit

/-- Whitespace, modeling `\s` / `str.split()` / `str.strip()` (ASCII part). -/
def isWs (c : Char) : Bool :=
  c = ' ' || c = Char.ofNat 9 || c = Char.ofNat 10 || c = Char.ofNat 13 ||
  c = Char.ofNat 11 || c = Char.ofNat 12

/-- Model of `str.lower()`, on ASCII `A–Z` and Cyrillic `А–Я`/`Ё` (identity elsewhere). -/
def charLower (c : Char) : Char :=
  if 65 ≤ c.toNat ∧ c.toNat ≤ 90 then Char.ofNat (c.toNat + 32)
  else if 1040 ≤ c.toNat ∧ c.toNat ≤ 1071 then Char.ofNat (c.toNat + 32)
  else if c.toNat = 1025 then Char.ofNat 1105
  else c

/-- Decimal digits of a natural number, most significant first. -/
def natRepr (n : Nat) : Str :=
  if _h : n < 10 then [dChar n]
  else natRepr (n / 10) ++ [dChar (n % 10)]
decreasing_by exact Nat.div_lt_self (by omega) (by omega)

/-- Model of `str(...)` on an integer. -/
def intRepr (i : ℤ) : Str :=
  if i < 0 then Char.ofNat 45 :: natRepr (-i).toNat else natRepr i.toNat

/-- Python `str(v)`. -/
def pyStr : PyVal → Str
  | .pstr s => s
  | .pint n => intRepr n
  | .pnone => "None".data
  | .pnan => "nan".data

/-- Model of `pd.isna(v)`: true for `None` and `nan`, false for strings and ints. -/
def pdIsna : PyVal → Bool
  | .pnone => true
  | .pnan => true
  | _ => false

/-- Python `v == ""` for a `PyVal`. -/
def pyEqEmptyStr : PyVal → Bool
  | .pstr s => s = ([] : Str)
  | _ => false

/-- Strip leading and trailing whitespace (`str.strip()`). -/
def strip (s : Str) : Str :=
  ((s.dropWhile isWs).reverse.dropWhile isWs).reverse

/-- Fuel-driven worker for `collapseWs` (each step consumes at least one
character, so `s.length` fuel always suffices; structural recursion keeps
the function kernel-reducible). -/
def collapseWsF : Nat → Str → Str
  | 0, s => s
  | fuel + 1, s =>
    match s with
    | [] => []
    | c :: cs =>
      if isWs c then ' ' :: collapseWsF fuel (cs.dropWhile isWs)
      else c :: collapseWsF fuel cs

/-- Replace every maximal whitespace run with a single space
(`re.sub(r"\s+", " ", s)`). -/
def collapseWs (s : Str) : Str := collapseWsF s.length s

/-- Does `w₀ :: wr` occur at the head of `s`? -/
def leadsWith : Str → Str → Bool
  | [], _ => true
  | _ :: _, [] => false
  | w :: ws, c :: cs => w = c && leadsWith ws cs

/-- Fuel-driven worker for `replaceAll` (each step consumes at least one
character, so `s.length` fuel always suffices). -/
def replaceAllF (w₀ : Char) (wr r : Str) : Nat → Str → Str
  | 0, s => s
  | fuel + 1, s =>
    match s with
    | [] => []
    | c :: cs =>
      if leadsWith (w₀ :: wr) (c :: cs)
      then r ++ replaceAllF w₀ wr r fuel (cs.drop wr.length)
      else c :: replaceAllF w₀ wr r fuel cs

/-- Replace every (left-to-right, non-overlapping) occurrence of the pattern
`w₀ :: wr` by `r` — the behavior of `str.replace` and of `re.sub` on a
pattern with no metacharacters. -/
def replaceAll (w₀ : Char) (wr r : Str) (s : Str) : Str :=
  replaceAllF w₀ wr r s.length s

/-- Apply one `pattern → replacement` entry (patterns are never empty). -/
def applySub (s : Str) (p : Str × Str) : Str :=
  match p.1 with
  | [] => s
  | w₀ :: wr => replaceAll w₀ wr p.2 s

/-!  `normalize_snils` (src/app.py lines 59–63). -/

/-- Embedding of `normalize_snils`: `str()` the value if needed, delete every non-digit
(`re.sub(r"\D", "", ...)`), keep the result only when it has exactly 11
digits. -/
def normalize_snils (v : PyVal) : Str :=
  let digits := (pyStr v).filter isD
  if digits.length = 11 then digits else []

/-!  `normalize_mnn` (src/app.py lines 48–57). -/

/-- The ordered typo-correction table of `normalize_mnn`. -/
def typoTable : List (Str × Str) :=
  [("парацитамол".data, "парацетамол".data),
   ("ибупрафен".data, "ибупрофен".data)]

/-- Embedding of `normalize_mnn`: `""` for NA values, else strip, lower-case, collapse
whitespace runs to single spaces, and apply the typo table in order
(`if w in s: s = s.replace(w, r)` replaces all occurrences). -/
def normalize_mnn (v : PyVal) : Str :=
  if pdIsna v then []
  else
    let s := strip (pyStr v)
    let s := s.map charLower
    let s := collapseWs s
    typoTable.foldl applySub s

/-!  `normalize_dob` (src/app.py lines 26–46).

The date parsing follows CPython's `_strptime`: each directive compiles to a
regex alternation tried in a fixed order with backtracking (`%d` is
`3[01]|[12]\d|0[1-9]|[1-9]`, `%m` is `1[0-2]|0[1-9]|[1-9]`, `%Y` is `\d{4}`,
`%y` is `\d\d`, a space matches `\s+`), the regex match is a prefix match
whose leftover input must be empty ("unconverted data remains"), and the
matched numbers are validated by the `datetime` constructor (real calendar
days, year 1–9999).  A failure of any of these raises `ValueError`, which the
source catches with a bare `except`, moving to the next format. -/

/-- All ways the `%d` directive can match a prefix, in regex preference
order, each with the remaining input. -/
def dayAlts : Str → List (Nat × Str)
  | [] => []
  | [c₁] => if isD c₁ && c₁ ≠ '0' then [(digitVal c₁, [])] else []
  | c₁ :: c₂ :: rest =>
    (if c₁ = '3' && (c₂ = '0' || c₂ = '1') then [(30 + digitVal c₂, rest)] else []) ++
    (if (c₁ = '1' || c₁ = '2') && isD c₂ then [(10 * digitVal c₁ + digitVal c₂, rest)] else []) ++
    (if c₁ = '0' && (isD c₂ && c₂ ≠ '0') then [(digitVal c₂, rest)] else []) ++
    (if isD c₁ && c₁ ≠ '0' then [(digitVal c₁, c₂ :: rest)] else [])

/-- All ways the `%m` directive can match a prefix, in regex preference
order. -/
def monthAlts : Str → List (Nat × Str)
  | [] => []
  | [c₁] => if isD c₁ && c₁ ≠ '0' then [(digitVal c₁, [])] else []
  | c₁ :: c₂ :: rest =>
    (if c₁ = '1' && (c₂ = '0' || c₂ = '1' || c₂ = '2') then [(10 + digitVal c₂, rest)] else []) ++
    (if c₁ = '0' && (isD c₂ && c₂ ≠ '0') then [(digitVal c₂, rest)] else []) ++
    (if isD c₁ && c₁ ≠ '0' then [(digitVal c₁, c₂ :: rest)] else [])

/-- The `%Y` directive: exactly four digits. -/
def yearAlts : Str → List (Nat × Str)
  | c₁ :: c₂ :: c₃ :: c₄ :: rest =>
    if isD c₁ && isD c₂ && isD c₃ && isD c₄ then
      [(1000 * digitVal c₁ + 100 * digitVal c₂ + 10 * digitVal c₃ + digitVal c₄, rest)]
    else []
  | _ => []

/-- The `%y` directive: exactly two digits, mapped through `_strptime`'s
century rule (`00–68 → 2000–2068`, `69–99 → 1969–1999`). -/
def year2Alts : Str → List (Nat × Str)
  | c₁ :: c₂ :: rest =>
    if isD c₁ && isD c₂ then
      let v := 10 * digitVal c₁ + digitVal c₂
      [((if v ≤ 68 then 2000 + v else 1900 + v), rest)]
    else []
  | _ => []

/-- A literal character in the format. -/
def litAlt (ch : Char) : Str → List Str
  | [] => []
  | c :: rest => if c = ch then [rest] else []

/-- A whitespace gap in the format (`\s+`): one or more whitespace
characters, greedy-first as the regex engine backtracks. -/
def wsAlts (s : Str) : List Str :=
  let k := (s.takeWhile isWs).length
  if k = 0 then [] else (List.range k).map (fun i => s.drop (k - i))

/-- Leap year per `datetime` (proleptic Gregorian). -/
def isLeap (y : Nat) : Bool := y % 4 = 0 && (y % 100 ≠ 0 || y % 400 = 0)

/-- Days in a month per `datetime`. -/
def daysInMonth (y m : Nat) : Nat :=
  if m = 2 then (if isLeap y then 29 else 28)
  else if m = 4 || m = 6 || m = 9 || m = 11 then 30
  else 31

/-- Validity check of the `datetime(year, month, day)` constructor. -/
def datetimeOk (y m d : Nat) : Bool :=
  1 ≤ y && y ≤ 9999 && 1 ≤ m && m ≤ 12 && 1 ≤ d && d ≤ daysInMonth y m

/-- Regex prefix match of `"%d.%m.%Y"`, first match in backtracking order,
with the leftover input. -/
def matchDotted (s : Str) : Option (Nat × Nat × Nat × Str) :=
  (dayAlts s).findSome? fun (d, s₁) =>
    (litAlt '.' s₁).findSome? fun s₂ =>
      (monthAlts s₂).findSome? fun (m, s₃) =>
        (litAlt '.' s₃).findSome? fun s₄ =>
          (yearAlts s₄).findSome? fun (y, s₅) => some (y, m, d, s₅)

/-- Regex prefix match of `"%d/%m/%Y"`. -/
def matchSlashed (s : Str) : Option (Nat × Nat × Nat × Str) :=
  (dayAlts s).findSome? fun (d, s₁) =>
    (litAlt '/' s₁).findSome? fun s₂ =>
      (monthAlts s₂).findSome? fun (m, s₃) =>
        (litAlt '/' s₃).findSome? fun s₄ =>
          (yearAlts s₄).findSome? fun (y, s₅) => some (y, m, d, s₅)

/-- Regex prefix match of `"%Y-%m-%d"`. -/
def matchIso (s : Str) : Option (Nat × Nat × Nat × Str) :=
  (yearAlts s).findSome? fun (y, s₁) =>
    (litAlt '-' s₁).findSome? fun s₂ =>
      (monthAlts s₂).findSome? fun (m, s₃) =>
        (litAlt '-' s₃).findSome? fun s₄ =>
          (dayAlts s₄).findSome? fun (d, s₅) => some (y, m, d, s₅)

/-- Regex prefix match of `"%d %m %Y"`. -/
def matchSpaced (s : Str) : Option (Nat × Nat × Nat × Str) :=
  (dayAlts s).findSome? fun (d, s₁) =>
    (wsAlts s₁).findSome? fun s₂ =>
      (monthAlts s₂).findSome? fun (m, s₃) =>
        (wsAlts s₃).findSome? fun s₄ =>
          (yearAlts s₄).findSome? fun (y, s₅) => some (y, m, d, s₅)

/-- Regex prefix match of `"%d.%m'%y"`. -/
def matchApos (s : Str) : Option (Nat × Nat × Nat × Str) :=
  (dayAlts s).findSome? fun (d, s₁) =>
    (litAlt '.' s₁).findSome? fun s₂ =>
      (monthAlts s₂).findSome? fun (m, s₃) =>
        (litAlt (Char.ofNat 39) s₃).findSome? fun s₄ =>
          (year2Alts s₄).findSome? fun (y, s₅) => some (y, m, d, s₅)

/-- After the regex match: `strptime` fails unless the whole input was
consumed, and the `datetime` constructor validates the calendar date. -/
def finishParse : Option (Nat × Nat × Nat × Str) → Option (Nat × Nat × Nat)
  | some (y, m, d, rest) =>
    if rest = [] ∧ datetimeOk y m d then some (y, m, d) else none
  | none => none

/-- Model of `datetime.strptime` tried against the source's format list in order;
the first success wins (each failure raises `ValueError`, caught by the
source's bare `except`). -/
def tryFormats (s : Str) : Option (Nat × Nat × Nat) :=
  match finishParse (matchDotted s) with
  | some t => some t
  | none =>
    match finishParse (matchSlashed s) with
    | some t => some t
    | none =>
      match finishParse (matchIso s) with
      | some t => some t
      | none =>
        match finishParse (matchSpaced s) with
        | some t => some t
        | none => finishParse (matchApos s)

/-- Two-digit zero-padded field of `strftime` (`%m`, `%d`). -/
def pad2 (x : Nat) : Str := [dChar (x / 10 % 10), dChar (x % 10)]

/-- Four-digit year field of `strftime` (`%Y`, zero-padded model). -/
def pad4 (y : Nat) : Str :=
  [dChar (y / 1000 % 10), dChar (y / 100 % 10), dChar (y / 10 % 10), dChar (y % 10)]

/-- Model of `dt.strftime("%Y-%m-%d")`. -/
def fmtYMD (y m d : Nat) : Str := pad4 y ++ '-' :: (pad2 m ++ '-' :: pad2 d)

/-- The allow-list of `re.sub(r"[^0-9a-zа-яё\s\-\/\.\']", "", s)`. -/
def allowChar (c : Char) : Bool :=
  isD c || decide (97 ≤ c.toNat ∧ c.toNat ≤ 122) ||
  decide (1072 ≤ c.toNat ∧ c.toNat ≤ 1103) || c.toNat = 1105 ||
  isWs c || c = '-' || c = '/' || c = '.' || c.toNat = 39

/-- The ordered abbreviated-month substitution table of `normalize_dob`. -/
def monthTable : List (Str × Str) :=
  [("янв".data, "01".data), ("фев".data, "02".data), ("мар".data, "03".data),
   ("апр".data, "04".data), ("май".data, "05".data), ("июн".data, "06".data),
   ("июл".data, "07".data), ("авг".data, "08".data), ("сен".data, "09".data),
   ("окт".data, "10".data), ("ноя".data, "11".data), ("дек".data, "12".data)]

/-- The preprocessing pipeline of `normalize_dob`: lower-case, delete every
`г` and `.` (the character class `[гг\.]` — note it deletes every period,
not just the `г.` year marker), delete everything outside the allow-list,
substitute abbreviated month names in table order. -/
def dobPre (s : Str) : Str :=
  monthTable.foldl applySub
    (((s.map charLower).filter (fun c => !(c = 'г' || c = '.'))).filter allowChar)

/-- Embedding of `normalize_dob`: `""` for NA or empty input; otherwise preprocess and
try the five date formats in order, reformatting the first success to
`YYYY-MM-DD`; `""` when every format fails. -/
def normalize_dob (v : PyVal) : Str :=
  if pdIsna v || pyEqEmptyStr v then []
  else
    match tryFormats (dobPre (pyStr v)) with
    | some (y, m, d) => fmtYMD y m d
    | none => []

/-!  The fuzzy string scores of `fuzzywuzzy` (difflib backend), used by
`extract_features` (src/app.py lines 65–101). -/

/-- Length of the longest common prefix of two strings. -/
def lcp : Str → Str → Nat
  | a :: as, b :: bs => if a = b then lcp as bs + 1 else 0
  | _, _ => 0

/-- Model of `SequenceMatcher.find_longest_match(alo, ahi, blo, bhi)` without junk:
of all maximal matching runs, the one starting earliest in `a`, then
earliest in `b`; `(alo, blo, 0)` when there is no match. -/
def flm (a b : Str) (alo ahi blo bhi : Nat) : Nat × Nat × Nat :=
  (List.range (ahi - alo)).foldl (fun best di =>
    (List.range (bhi - blo)).foldl (fun best dj =>
      let i := alo + di
      let j := blo + dj
      let k := min (lcp (a.drop i) (b.drop j)) (min (ahi - i) (bhi - j))
      if best.2.2 < k then (i, j, k) else best) best) (alo, blo, 0)

/-- The recursive block collection behind `get_matching_blocks`: the longest
match splits the window and both sides are processed recursively (difflib
sorts its worklist output; this recursion emits blocks already sorted). -/
def mblocks (fuel : Nat) (a b : Str) (alo ahi blo bhi : Nat) :
    List (Nat × Nat × Nat) :=
  match fuel with
  | 0 => []
  | fuel + 1 =>
    let t := flm a b alo ahi blo bhi
    if t.2.2 = 0 then []
    else mblocks fuel a b alo t.1 blo t.2.1 ++
      t :: mblocks fuel a b (t.1 + t.2.2) ahi (t.2.1 + t.2.2) bhi

/-- The adjacent-block merge pass of `get_matching_blocks`. -/
def mergeAdj (bs : List (Nat × Nat × Nat)) : List (Nat × Nat × Nat) :=
  let step := bs.foldl (fun (st : List (Nat × Nat × Nat) × Nat × Nat × Nat) t =>
    let acc := st.1
    let cur := st.2
    if cur.1 + cur.2.2 = t.1 ∧ cur.2.1 + cur.2.2 = t.2.1 then
      (acc, (cur.1, cur.2.1, cur.2.2 + t.2.2))
    else
      ((if cur.2.2 = 0 then acc else acc ++ [cur]), t)) ([], (0, 0, 0))
  if step.2.2.2 = 0 then step.1 else step.1 ++ [step.2]

/-- Model of `SequenceMatcher.get_matching_blocks()`, terminator block included. -/
def matchingBlocks (a b : Str) : List (Nat × Nat × Nat) :=
  mergeAdj (mblocks (a.length + b.length + 1) a b 0 a.length 0 b.length) ++
    [(a.length, b.length, 0)]

/-- Model of `SequenceMatcher.ratio()`: `2*M/T` over the matched character total. -/
def seqRatio (a b : Str) : ℚ :=
  let m := ((matchingBlocks a b).map (fun t => t.2.2)).sum
  let t := a.length + b.length
  if t = 0 then 1 else (2 * m : ℚ) / t

/-- Python 3 `round` (half to even), as used by `utils.intr`. -/
def pyRound (q : ℚ) : ℤ :=
  let f := q.floor
  let r := q - f
  if r < 1 / 2 then f
  else if 1 / 2 < r then f + 1
  else if 2 ∣ f then f else f + 1

/-- Model of `fuzz.ratio`: the equal-string shortcut of `@utils.check_for_equal`,
else `intr(100 * ratio)`. -/
def fuzzR (s1 s2 : Str) : ℤ :=
  if s1 = s2 then 100 else pyRound (100 * seqRatio s1 s2)

/-- Largest score of a nonempty score list (`max(scores)`). -/
def maxQ (l : List ℚ) : ℚ := l.foldl max 0

/-- Model of `fuzz.partial_ratio`: slide the shorter string along the best-aligned
substrings of the longer one (per matching block), early-100 when any
score exceeds 0.995. -/
def fuzzPR (s1 s2 : Str) : ℤ :=
  if s1 = s2 then 100
  else
    let p := if s1.length ≤ s2.length then (s1, s2) else (s2, s1)
    let shorter := p.1
    let longer := p.2
    let blocks := matchingBlocks shorter longer
    let scores := blocks.map (fun t =>
      let ls := t.2.1 - t.1
      seqRatio shorter ((longer.drop ls).take shorter.length))
    if scores.any (fun r => 199 / 200 < r) then 100
    else pyRound (100 * maxQ scores)

/-- A word character for the `(?ui)\W` substitution of
`utils.full_process`: ASCII alphanumerics, underscore, Cyrillic letters. -/
def wordChar (c : Char) : Bool :=
  isD c || decide (97 ≤ c.toNat ∧ c.toNat ≤ 122) ||
  decide (65 ≤ c.toNat ∧ c.toNat ≤ 90) || c = '_' ||
  decide (1072 ≤ c.toNat ∧ c.toNat ≤ 1103) ||
  decide (1040 ≤ c.toNat ∧ c.toNat ≤ 1071) ||
  c.toNat = 1105 || c.toNat = 1025

/-- Model of `utils.asciidammit`: it deletes exactly the code points 128–255. -/
def asciiDammit (s : Str) : Str :=
  s.filter (fun c => !(decide (128 ≤ c.toNat ∧ c.toNat ≤ 255)))

/-- Model of `utils.full_process(s, force_ascii=True)`: asciidammit, replace
non-word characters with spaces, lower-case, strip. -/
def fullProcess (s : Str) : Str :=
  strip (((asciiDammit s).map (fun c => if wordChar c then c else ' ')).map charLower)

/-- Python string `<` (lexicographic by code point). -/
def lexLt : Str → Str → Bool
  | [], [] => false
  | [], _ :: _ => true
  | _ :: _, [] => false
  | a :: as, b :: bs =>
    if a.toNat < b.toNat then true
    else if b.toNat < a.toNat then false
    else lexLt as bs

/-- Insertion into a lexicographically sorted token list (stable). -/
def insSorted (x : Str) : List Str → List Str
  | [] => [x]
  | y :: ys => if lexLt x y then x :: y :: ys else y :: insSorted x ys

/-- Model of `sorted(tokens)`. -/
def sortTokens (ts : List Str) : List Str := ts.foldl (fun acc t => insSorted t acc) []

/-- Fuel-driven worker for `splitWs`. -/
def splitWsF : Nat → Str → List Str
  | 0, _ => []
  | fuel + 1, s =>
    match s with
    | [] => []
    | c :: cs =>
      if isWs c then splitWsF fuel (cs.dropWhile isWs)
      else (c :: cs.takeWhile (fun x => !isWs x)) ::
        splitWsF fuel (cs.dropWhile (fun x => !isWs x))

/-- Model of `str.split()`: whitespace-delimited tokens, no empties. -/
def splitWs (s : Str) : List Str := splitWsF s.length s

/-- Model of `" ".join(tokens)`. -/
def joinSpace : List Str → Str
  | [] => []
  | [t] => t
  | t :: ts => t ++ ' ' :: joinSpace ts

/-- Model of `fuzz._process_and_sort`: full-process, split, sort, rejoin, strip. -/
def processAndSort (s : Str) : Str :=
  strip (joinSpace (sortTokens (splitWs (fullProcess s))))

/-- Model of `fuzz.token_sort_ratio` (full_process and force_ascii on, as the app
calls it): `fuzz.ratio` of the two processed-and-sorted strings. -/
def fuzzTSR (s1 s2 : Str) : ℤ :=
  fuzzR (processAndSort s1) (processAndSort s2)

/-!  `extract_features` (src/app.py lines 65–101). -/

/-- One input record: the seven dict entries `extract_features` reads.
`none` models an absent key (access raises `KeyError`). -/
structure Row where
  snils : Option PyVal
  dob : Option PyVal
  mnn : Option PyVal
  issued : Option PyVal
  disp : Option PyVal
  qtyIssued : Option PyVal
  qtyDisp : Option PyVal

/-- Dict access `row[key]`. -/
def getKey (o : Option PyVal) (key : Str) : Except PyErr PyVal :=
  match o with
  | some v => .ok v
  | none => .error (.keyError key)

/-- Python `-` on two scalar values: exact on ints, nan-propagating on
floats, `TypeError` on strings and `None`. -/
def pySub : PyVal → PyVal → Except PyErr PyNum
  | .pint a, .pint b => .ok (.rat ((a : ℚ) - (b : ℚ)))
  | .pint _, .pnan => .ok .nan
  | .pnan, .pint _ => .ok .nan
  | .pnan, .pnan => .ok .nan
  | a, b => .error (.typeError (pyTypeName a) (pyTypeName b))

/-- Python `abs` on a numeric value. -/
def pyAbs : PyNum → PyNum
  | .rat q => .rat |q|
  | .nan => .nan

/-- Embedding of `extract_features(row_a, row_b)`: the 9-dimensional feature vector, in
the source's dimension order, with the source's evaluation (and hence
exception) order.  Fuzzy scores are divided by 100.0; the two exact-match
flags follow lines 82 and 86 verbatim. -/
def extract_features (a b : Row) : Except PyErr (List PyNum) := do
  let mnnVA ← getKey a.mnn "МНН".data
  let mnnVB ← getKey b.mnn "МНН".data
  let mnnA := normalize_mnn mnnVA
  let mnnB := normalize_mnn mnnVB
  let issuedVA ← getKey a.issued "Выписано ЛС".data
  let issuedVB ← getKey b.issued "Выписано ЛС".data
  let issuedA := pyStr issuedVA
  let issuedB := pyStr issuedVB
  let dispVA ← getKey a.disp "ЛС (отпущенное / зарезервированное)".data
  let dispVB ← getKey b.disp "ЛС (отпущенное / зарезервированное)".data
  let dispA := pyStr dispVA
  let dispB := pyStr dispVB
  let snilsVA ← getKey a.snils "СНИЛС".data
  let snilsVB ← getKey b.snils "СНИЛС".data
  let snilsA := normalize_snils snilsVA
  let snilsB := normalize_snils snilsVB
  let dobVA ← getKey a.dob "Дата рождения пациента".data
  let dobVB ← getKey b.dob "Дата рождения пациента".data
  let dobA := normalize_dob dobVA
  let dobB := normalize_dob dobVB
  let qiVA ← getKey a.qtyIssued "Кол-во выписано".data
  let qiVB ← getKey b.qtyIssued "Кол-во выписано".data
  let qtyIssuedDiff ← pySub qiVA qiVB
  let qdVA ← getKey a.qtyDisp "Кол-во отпущенного ЛС".data
  let qdVB ← getKey b.qtyDisp "Кол-во отпущенного ЛС".data
  let qtyDispDiff ← pySub qdVA qdVB
  return [
    .rat ((fuzzR mnnA mnnB : ℚ) / 100),
    .rat ((fuzzPR mnnA mnnB : ℚ) / 100),
    .rat ((fuzzR issuedA issuedB : ℚ) / 100),
    .rat ((fuzzTSR issuedA issuedB : ℚ) / 100),
    .rat ((fuzzR dispA dispB : ℚ) / 100),
    .rat (if snilsA = snilsB ∧ snilsA.length = 11 then 1 else 0),
    .rat (if dobA = dobB ∧ dobA ≠ [] then 1 else 0),
    pyAbs qtyIssuedDiff,
    pyAbs qtyDispDiff]

/-!  The verdict block (src/app.py lines 240–247). -/

/-- The two user-visible verdicts. -/
inductive Verdict where
  | same
  | different
  deriving DecidableEq

/-- The decision code after scoring: `if prob > 0.5` report SAME with
confidence `prob`, else DIFFERENT with confidence `1 - prob`.  The source
has no other branch: every probability value is mapped to a verdict. -/
def verdict_block (p : ℚ) : Verdict × ℚ :=
  if 1 / 2 < p then (.same, p) else (.different, 1 - p)

/-- A row whose seven keys are all present, quantities given as ints (the
shape the Streamlit form always produces). -/
def mkRow (sn db mn is dp : PyVal) (qi qd : ℤ) : Row :=
  ⟨some sn, some db, some mn, some is, some dp, some (.pint qi), some (.pint qd)⟩

/-- The spec's `normalizeIdentifier`, written from its words: strip every
non-digit character; return the cleaned digit string only if its length is
exactly 11, otherwise the empty sentinel. -/
def specNormalizeIdentifier (s : Str) : Str :=
  let cleaned := s.filter Char.isDigit
  if cleaned.length = 11 then cleaned else []

/-- A well-formed quantity entry: the key is present and its value is
numeric (an int, or a float such as nan). -/
def goodQty (o : Option PyVal) : Prop :=
  (∃ n, o = some (.pint n)) ∨ o = some .pnan

instance {α β : Type} [DecidableEq α] [DecidableEq β] : DecidableEq (Except α β) :=
  fun x y =>
    match x, y with
    | .ok a, .ok b => decidable_of_iff (a = b) (by simp)
    | .error a, .error b => decidable_of_iff (a = b) (by simp)
    | .ok _, .error _ => isFalse (fun h => by cases h)
    | .error _, .ok _ => isFalse (fun h => by cases h)

/-!  Theorems. -/

attribute [local semireducible] Rat.mul Rat.inv Rat.add Rat.sub

/-- C9: the decision policy maps a probability `p` to SAME exactly when
`p > 0.5` and to DIFFERENT otherwise, and the reported confidence is `p`
for SAME and `1 - p` for DIFFERENT. -/
theorem decision_policy_threshold_confidence (p : ℚ) :
    ((verdict_block p).1 = .same ↔ 1 / 2 < p) ∧
    ((verdict_block p).1 = .different ↔ p ≤ 1 / 2) ∧
    (1 / 2 < p → verdict_block p = (.same, p)) ∧
    (p ≤ 1 / 2 → verdict_block p = (.different, 1 - p)) := by
  unfold verdict_block
  split_ifs with h
  · exact ⟨by simp; linarith, by simp; linarith, fun _ => rfl,
      fun h2 => absurd h2 (by linarith)⟩
  · have hp : p ≤ 1 / 2 := not_lt.mp h
    exact ⟨by simp; linarith, by simp; linarith, fun h2 => absurd h2 h, fun _ => rfl⟩

/-- C9 witness: the policy at the concrete probabilities 0.7 and 0.3. -/
theorem decision_policy_threshold_confidence_witness :
    verdict_block (7 / 10) = (.same, 7 / 10) ∧
    verdict_block (3 / 10) = (.different, 7 / 10) :=
  ⟨(decision_policy_threshold_confidence (7 / 10)).2.2.1 (by norm_num),
   by rw [(decision_policy_threshold_confidence (3 / 10)).2.2.2 (by norm_num)]; norm_num⟩

/-- C5 counterexample: the code performs no `[0,1]` validation after
scoring — the out-of-range probabilities 1.5 and −0.5 are not rejected but
mapped to ordinary verdicts (with "confidences" of 150%). -/
theorem verdict_block_no_range_check_cex :
    verdict_block (3 / 2) = (.same, 3 / 2) ∧
    verdict_block (-(1 / 2)) = (.different, 3 / 2) := by
  constructor <;> · unfold verdict_block; norm_num

/-- C5 amended: after obtaining the probability the core proceeds straight
to a verdict for every value; a probability above 1 still yields SAME with
confidence `p`, and a negative one yields DIFFERENT with confidence
`1 - p` — there is no validation and no error path. -/
theorem verdict_block_total_on_out_of_range (p : ℚ) :
    (1 < p → verdict_block p = (.same, p)) ∧
    (p < 0 → verdict_block p = (.different, 1 - p)) := by
  constructor <;> intro h <;> unfold verdict_block
  · rw [if_pos (by linarith)]
  · rw [if_neg (by intro h2; linarith)]

/-- C5 amended witness: out-of-range probabilities 2 and −1 both get
verdicts. -/
theorem verdict_block_total_on_out_of_range_witness :
    verdict_block 2 = (.same, 2) ∧ verdict_block (-1) = (.different, 1 - (-1)) :=
  ⟨(verdict_block_total_on_out_of_range 2).1 (by norm_num),
   (verdict_block_total_on_out_of_range (-1)).2 (by norm_num)⟩

/-- C4: `normalize_snils` on any string removes every non-digit character
and keeps the result exactly when 11 digits remain, i.e. it coincides with
the spec's `normalizeIdentifier` on every input string. -/
theorem normalize_snils_refines_spec (s : Str) :
    normalize_snils (.pstr s) = specNormalizeIdentifier s := rfl

/-- C1: contrary to the spec's scenario, the code normalizes neither
`"01.01.1990"` nor `"1 янв 1990 г."` to `"1990-01-01"`: the character class
`[гг\.]` deletes every period, so the dotted patterns of the format list
can never match and both inputs degrade to the empty sentinel — and the
birth-date exact-match flag (dimension 7) for two records carrying these
values is therefore 0.0, not 1.0. -/
theorem normalize_dob_dotted_dates_dead :
    normalize_dob (.pstr "01.01.1990".data) = [] ∧
    normalize_dob (.pstr "1 янв 1990 г.".data) = [] ∧
    (extract_features
        (mkRow (.pstr "123".data) (.pstr "01.01.1990".data) (.pstr "a".data)
          (.pstr "a".data) (.pstr "a".data) 1 1)
        (mkRow (.pstr "123".data) (.pstr "1 янв 1990 г.".data) (.pstr "a".data)
          (.pstr "a".data) (.pstr "a".data) 1 1)).map (fun v => v.get? 6) =
      .ok (some (.rat 0)) := by
  refine ⟨by decide, by decide, by decide⟩

/-- C2 counterexample: `extract_features` is not symmetric.  With every
field present, generic names `"abcb"` and `"bcab"` (all other fields equal)
give a similarity dimension of 0.5 in one order and 0.75 in the other,
because the difflib ratio underlying `fuzz.ratio` picks different matching
blocks depending on argument order. -/
theorem extract_features_not_symmetric_cex :
    extract_features
        (mkRow (.pstr "12345678900".data) (.pstr "1990-01-01".data) (.pstr "abcb".data)
          (.pstr "x".data) (.pstr "x".data) 2 2)
        (mkRow (.pstr "12345678900".data) (.pstr "1990-01-01".data) (.pstr "bcab".data)
          (.pstr "x".data) (.pstr "x".data) 2 2) ≠
      extract_features
        (mkRow (.pstr "12345678900".data) (.pstr "1990-01-01".data) (.pstr "bcab".data)
          (.pstr "x".data) (.pstr "x".data) 2 2)
        (mkRow (.pstr "12345678900".data) (.pstr "1990-01-01".data) (.pstr "abcb".data)
          (.pstr "x".data) (.pstr "x".data) 2 2) := by
  decide

/-- C2 amended: with all seven fields present, the flag and quantity
dimensions 6–9 of the feature vector are symmetric in the record order; the
five fuzzy-similarity dimensions are not symmetric in general (see the
counterexample), because the underlying difflib ratio is order-sensitive. -/
theorem extract_features_sym_flags_qty
    (sn1 db1 mn1 is1 dp1 sn2 db2 mn2 is2 dp2 : PyVal) (qi1 qd1 qi2 qd2 : ℤ) :
    (extract_features (mkRow sn1 db1 mn1 is1 dp1 qi1 qd1)
        (mkRow sn2 db2 mn2 is2 dp2 qi2 qd2)).map (fun v => v.drop 5) =
    (extract_features (mkRow sn2 db2 mn2 is2 dp2 qi2 qd2)
        (mkRow sn1 db1 mn1 is1 dp1 qi1 qd1)).map (fun v => v.drop 5) := by
  dsimp only [extract_features, mkRow, getKey, bind, Except.bind, Except.instMonad, pure,
    Except.pure, pySub, pyAbs, Except.map, List.drop]
  have e1 : (normalize_snils sn1 = normalize_snils sn2 ∧ (normalize_snils sn1).length = 11) ↔
      (normalize_snils sn2 = normalize_snils sn1 ∧ (normalize_snils sn2).length = 11) := by
    constructor <;> rintro ⟨h, h2⟩ <;> exact ⟨h.symm, h ▸ h2⟩
  have e2 : (normalize_dob db1 = normalize_dob db2 ∧ normalize_dob db1 ≠ []) ↔
      (normalize_dob db2 = normalize_dob db1 ∧ normalize_dob db2 ≠ []) := by
    constructor <;> rintro ⟨h, h2⟩ <;> exact ⟨h.symm, h ▸ h2⟩
  rw [if_congr e1 rfl rfl, if_congr e2 rfl rfl, abs_sub_comm ((qi1 : ℚ)) ((qi2 : ℚ)),
    abs_sub_comm ((qd1 : ℚ)) ((qd2 : ℚ))]

/-- Every `normalize_snils` result is the empty sentinel or has exactly 11
characters. -/
theorem normalize_snils_shape (v : PyVal) :
    normalize_snils v = [] ∨ (normalize_snils v).length = 11 := by
  unfold normalize_snils
  dsimp only
  split_ifs with h
  · exact Or.inr h
  · exact Or.inl rfl

/-- C3: the identifier and birth-date exact-match flags (dimensions 6 and 7,
indices 5 and 6) are 1.0 exactly when both normalized values are non-empty
and equal, and are never anything but 0.0 or 1.0 — in particular two empty
sentinels give 0.0. -/
theorem exact_match_flags_iff_nonempty_equal
    (sn1 db1 mn1 is1 dp1 sn2 db2 mn2 is2 dp2 : PyVal) (qi1 qd1 qi2 qd2 : ℤ) :
    ∃ v, extract_features (mkRow sn1 db1 mn1 is1 dp1 qi1 qd1)
        (mkRow sn2 db2 mn2 is2 dp2 qi2 qd2) = .ok v ∧
      (v.get? 5 = some (.rat 1) ∨ v.get? 5 = some (.rat 0)) ∧
      (v.get? 6 = some (.rat 1) ∨ v.get? 6 = some (.rat 0)) ∧
      (v.get? 5 = some (.rat 1) ↔
        (normalize_snils sn1 ≠ [] ∧ normalize_snils sn2 ≠ [] ∧
          normalize_snils sn1 = normalize_snils sn2)) ∧
      (v.get? 6 = some (.rat 1) ↔
        (normalize_dob db1 ≠ [] ∧ normalize_dob db2 ≠ [] ∧
          normalize_dob db1 = normalize_dob db2)) := by
  refine ⟨_, rfl, ?_, ?_, ?_, ?_⟩
  · dsimp only [List.get?]
    split_ifs <;> first
      | exact Or.inl rfl
      | exact Or.inr rfl
  · dsimp only [List.get?]
    split_ifs <;> first
      | exact Or.inl rfl
      | exact Or.inr rfl
  · dsimp only [List.get?]
    by_cases hc : normalize_snils sn1 = normalize_snils sn2 ∧
        (normalize_snils sn1).length = 11
    · obtain ⟨he, hl⟩ := hc
      rw [if_pos (And.intro he hl)]
      refine iff_of_true rfl ⟨?_, ?_, he⟩
      · intro h0; rw [h0] at hl; simp at hl
      · intro h0; rw [he, h0] at hl; simp at hl
    · rw [if_neg hc]
      refine iff_of_false (by simp) ?_
      rintro ⟨h1, h2, he⟩
      rcases normalize_snils_shape sn1 with hs | hs
      · exact absurd hs h1
      · exact absurd ⟨he, hs⟩ hc
  · dsimp only [List.get?]
    by_cases hc : normalize_dob db1 = normalize_dob db2 ∧ normalize_dob db1 ≠ []
    · obtain ⟨he, hn⟩ := hc
      rw [if_pos (And.intro he hn)]
      exact iff_of_true rfl ⟨hn, he ▸ hn, he⟩
    · rw [if_neg hc]
      refine iff_of_false (by simp) ?_
      rintro ⟨h1, h2, he⟩; exact absurd ⟨he, h1⟩ hc

/-- Inversion of a successful `Except` bind. -/
theorem exbind_ok {α β : Type} {x : Except PyErr α} {f : α → Except PyErr β} {b : β}
    (h : x >>= f = .ok b) : ∃ a, x = .ok a ∧ f a = .ok b := by
  cases x with
  | ok a => exact ⟨a, rfl, h⟩
  | error e => exact Except.noConfusion h

/-- Inversion of a successful dict access. -/
theorem getKey_ok {o : Option PyVal} {k : Str} {v : PyVal} (h : getKey o k = .ok v) :
    o = some v := by
  cases o with
  | some w => cases h; rfl
  | none => exact Except.noConfusion h

/-- A successful Python subtraction means both operands were numeric. -/
theorem pySub_ok {a b : PyVal} {n : PyNum} (h : pySub a b = .ok n) :
    ((∃ m, a = .pint m) ∨ a = .pnan) ∧ ((∃ m, b = .pint m) ∨ b = .pnan) := by
  cases a <;> cases b <;> (try simp [pySub] at h) <;>
    first
      | exact ⟨Or.inl ⟨_, rfl⟩, Or.inl ⟨_, rfl⟩⟩
      | exact ⟨Or.inl ⟨_, rfl⟩, Or.inr rfl⟩
      | exact ⟨Or.inr rfl, Or.inl ⟨_, rfl⟩⟩
      | exact ⟨Or.inr rfl, Or.inr rfl⟩

/-- A feature vector is only produced when all four quantity entries are
present and numeric. -/
theorem extract_ok_good {A B : Row} {v : List PyNum}
    (h : extract_features A B = .ok v) :
    goodQty A.qtyIssued ∧ goodQty B.qtyIssued ∧ goodQty A.qtyDisp ∧ goodQty B.qtyDisp := by
  unfold extract_features at h
  obtain ⟨a1, h1, h⟩ := exbind_ok h
  obtain ⟨a2, h2, h⟩ := exbind_ok h
  obtain ⟨a3, h3, h⟩ := exbind_ok h
  obtain ⟨a4, h4, h⟩ := exbind_ok h
  obtain ⟨a5, h5, h⟩ := exbind_ok h
  obtain ⟨a6, h6, h⟩ := exbind_ok h
  obtain ⟨a7, h7, h⟩ := exbind_ok h
  obtain ⟨a8, h8, h⟩ := exbind_ok h
  obtain ⟨a9, h9, h⟩ := exbind_ok h
  obtain ⟨a10, h10, h⟩ := exbind_ok h
  obtain ⟨q1, hq1, h⟩ := exbind_ok h
  obtain ⟨q2, hq2, h⟩ := exbind_ok h
  obtain ⟨d1, hd1, h⟩ := exbind_ok h
  obtain ⟨q3, hq3, h⟩ := exbind_ok h
  obtain ⟨q4, hq4, h⟩ := exbind_ok h
  obtain ⟨d2, hd2, h⟩ := exbind_ok h
  obtain ⟨s1g, s2g⟩ := pySub_ok hd1
  obtain ⟨s3g, s4g⟩ := pySub_ok hd2
  rw [getKey_ok hq1, getKey_ok hq2, getKey_ok hq3, getKey_ok hq4]
  refine ⟨?_, ?_, ?_, ?_⟩ <;> unfold goodQty
  · rcases s1g with ⟨m, hm⟩ | hm <;> rw [hm]
    · exact Or.inl ⟨m, rfl⟩
    · exact Or.inr rfl
  · rcases s2g with ⟨m, hm⟩ | hm <;> rw [hm]
    · exact Or.inl ⟨m, rfl⟩
    · exact Or.inr rfl
  · rcases s3g with ⟨m, hm⟩ | hm <;> rw [hm]
    · exact Or.inl ⟨m, rfl⟩
    · exact Or.inr rfl
  · rcases s4g with ⟨m, hm⟩ | hm <;> rw [hm]
    · exact Or.inl ⟨m, rfl⟩
    · exact Or.inr rfl

/-- C6: if either record's quantity entries are missing or non-numeric
(`Кол-во выписано` / `Кол-во отпущенного ЛС` absent, a string, or `None`),
`extract_features` fails fast with a typed error (`KeyError` naming the
absent key, or `TypeError` from the subtraction) — it never returns a
defaulted feature vector. -/
theorem extract_features_bad_qty_errors (A B : Row)
    (h : ¬ (goodQty A.qtyIssued ∧ goodQty B.qtyIssued ∧
        goodQty A.qtyDisp ∧ goodQty B.qtyDisp)) :
    ∃ e, extract_features A B = .error e := by
  cases hx : extract_features A B with
  | error e => exact ⟨e, rfl⟩
  | ok v => exact absurd (extract_ok_good hx) h

/-- C6 witness: a record pair whose first quantity key is absent is
rejected with an error. -/
theorem extract_features_bad_qty_errors_witness :
    ∃ e, extract_features
        ⟨some (.pstr "1".data), some (.pstr "1".data), some (.pstr "a".data),
          some (.pstr "a".data), some (.pstr "a".data), none, some (.pint 1)⟩
        (mkRow (.pstr "1".data) (.pstr "1".data) (.pstr "a".data) (.pstr "a".data)
          (.pstr "a".data) 1 1) = .error e :=
  extract_features_bad_qty_errors _ _ (by simp [goodQty, mkRow])

/-- Whatever `finishParse` accepts passed the `datetime` validation. -/
theorem finishParse_ok {o : Option (Nat × Nat × Nat × Str)} {y m d : Nat}
    (h : finishParse o = some (y, m, d)) : datetimeOk y m d = true := by
  cases o with
  | none => exact Option.noConfusion h
  | some t =>
    obtain ⟨y1, m1, d1, rest⟩ := t
    unfold finishParse at h
    dsimp only at h
    split_ifs at h with hc
    cases h; exact hc.2

/-- Whatever `strptime` date the format list accepts is a validated
calendar date. -/
theorem tryFormats_ok {s : Str} {y m d : Nat} (h : tryFormats s = some (y, m, d)) :
    datetimeOk y m d = true := by
  unfold tryFormats at h
  repeat' split at h
  all_goals try exact finishParse_ok h
  all_goals
    injection h with h2
    subst h2
    exact finishParse_ok (by assumption)

/-- Every `normalize_dob` result is the empty sentinel or the canonical
reformatting of a validated calendar date. -/
theorem normalize_dob_shape (v : PyVal) :
    normalize_dob v = [] ∨
      ∃ y m d, datetimeOk y m d = true ∧ normalize_dob v = fmtYMD y m d := by
  unfold normalize_dob
  split_ifs with h
  · exact Or.inl rfl
  · cases hm : tryFormats (dobPre (pyStr v)) with
    | none => simp [hm]
    | some t =>
      obtain ⟨y, m, d⟩ := t
      dsimp only
      exact Or.inr ⟨y, m, d, tryFormats_ok hm, rfl⟩

/-- C10: for every input, `normalize_dob` returns either the empty string
or the 10-character zero-padded `YYYY-MM-DD` rendering of a successfully
parsed, `datetime`-validated calendar date. -/
theorem normalize_dob_output_canonical_shape (v : PyVal) :
    normalize_dob v = [] ∨
      ∃ y m d, datetimeOk y m d = true ∧ normalize_dob v = fmtYMD y m d ∧
        (normalize_dob v).length = 10 := by
  rcases normalize_dob_shape v with h | ⟨y, m, d, hok, he⟩
  · exact Or.inl h
  · refine Or.inr ⟨y, m, d, hok, he, ?_⟩
    rw [he]; simp [fmtYMD, pad4, pad2]

/-- C8: the three normalizers are total over the whole value universe
(strings, ints, `None`, nan) — every fallible operation they use is either
total or guarded exactly where the source catches it — and they degrade to
the empty-string sentinel: a non-sentinel `normalize_snils` result is an
11-character string, a non-sentinel `normalize_dob` result is a validated
canonical date, and NA inputs map to the sentinel. -/
theorem normalizers_total_with_sentinel (v : PyVal) :
    (normalize_snils v = [] ∨ (normalize_snils v).length = 11) ∧
    (normalize_dob v = [] ∨
      ∃ y m d, datetimeOk y m d = true ∧ normalize_dob v = fmtYMD y m d) ∧
    (pdIsna v = true → normalize_mnn v = [] ∧ normalize_dob v = []) := by
  refine ⟨normalize_snils_shape v, normalize_dob_shape v, fun hna => ⟨?_, ?_⟩⟩
  · unfold normalize_mnn; rw [if_pos hna]
  · unfold normalize_dob; rw [if_pos (by rw [hna]; rfl)]

/-- C8 witness: the NA value `nan` (a non-string input) degrades to the
sentinel in both text normalizers. -/
theorem normalizers_total_with_sentinel_witness :
    normalize_mnn .pnan = [] ∧ normalize_dob .pnan = [] :=
  (normalizers_total_with_sentinel .pnan).2.2 rfl

/-- The facts needed about digit characters during reparsing. -/
theorem dChar_facts : ∀ k, k < 10 →
    charLower (dChar k) = dChar k ∧ (!(dChar k = 'г' || dChar k = '.')) = true ∧
    allowChar (dChar k) = true ∧ (dChar k).toNat < 1072 ∧ isD (dChar k) = true ∧
    digitVal (dChar k) = k ∧ dChar k ≠ '.' ∧ dChar k ≠ '/' := by decide

/-- Mapping a pointwise-identity function over a string is the identity. -/
theorem map_id_of (f : Char → Char) :
    ∀ l : Str, (∀ c ∈ l, f c = c) → l.map f = l := by
  intro l
  induction l with
  | nil => intro _; rfl
  | cons c cs ih =>
    intro h
    rw [List.map_cons, h c (List.mem_cons_self c cs),
      ih (fun x hx => h x (List.mem_cons_of_mem c hx))]

/-- Lemma: `replaceAllF` does nothing when the pattern head never occurs. -/
theorem replaceAllF_noop (w₀ : Char) (wr r : Str) :
    ∀ fuel (s : Str), (∀ c ∈ s, c ≠ w₀) → replaceAllF w₀ wr r fuel s = s := by
  intro fuel
  induction fuel with
  | zero => intro s _; rfl
  | succ n ih =>
    intro s h
    cases s with
    | nil => rfl
    | cons c cs =>
      have h1 : c ≠ w₀ := h c (List.mem_cons_self c cs)
      unfold replaceAllF
      dsimp only
      rw [if_neg (by simp [leadsWith]; intro he; exact absurd he.symm h1)]
      rw [ih cs (fun x hx => h x (List.mem_cons_of_mem c hx))]

/-- A substitution table whose patterns all start with a character above the
code-point range of a string leaves the string unchanged. -/
theorem tblFold_noop (tbl : List (Str × Str)) (s : Str)
    (h : ∀ c ∈ s, c.toNat < 1072)
    (ht : ∀ p ∈ tbl, p.1 ≠ [] ∧ 1072 ≤ p.1.headI.toNat) :
    tbl.foldl applySub s = s := by
  induction tbl with
  | nil => rfl
  | cons p ps ih =>
    have hp := ht p (List.mem_cons_self p ps)
    have hstep : applySub s p = s := by
      unfold applySub
      cases hp1 : p.1 with
      | nil => exact absurd hp1 hp.1
      | cons w₀ wr =>
        have hw : 1072 ≤ w₀.toNat := by
          have := hp.2; rw [hp1] at this; exact this
        exact replaceAllF_noop w₀ wr p.2 s.length s
          (fun c hc he => by subst he; have := h c hc; omega)
    rw [List.foldl_cons, hstep]
    exact ih (fun q hq => ht q (List.mem_cons_of_mem p hq))

/-- Every character of a canonical date string is a digit or the hyphen. -/
theorem fmtYMD_mem {y m d : Nat} {c : Char} (hc : c ∈ fmtYMD y m d) :
    c = '-' ∨ ∃ k, k < 10 ∧ c = dChar k := by
  have e : fmtYMD y m d = [dChar (y / 1000 % 10), dChar (y / 100 % 10), dChar (y / 10 % 10),
      dChar (y % 10), '-', dChar (m / 10 % 10), dChar (m % 10), '-',
      dChar (d / 10 % 10), dChar (d % 10)] := rfl
  rw [e] at hc
  simp only [List.mem_cons, List.not_mem_nil, or_false] at hc
  rcases hc with h | h | h | h | h | h | h | h | h | h
  all_goals first
    | exact Or.inl h
    | exact Or.inr ⟨_, Nat.mod_lt _ (by norm_num), h⟩

/-- Preprocessing a canonical date string is the identity: lower-casing,
the `[гг\.]` deletion, the allow-list filter and the month substitutions
all leave digits and hyphens untouched. -/
theorem dobPre_canonical (y m d : Nat) : dobPre (fmtYMD y m d) = fmtYMD y m d := by
  unfold dobPre
  have h1 : (fmtYMD y m d).map charLower = fmtYMD y m d := by
    refine map_id_of _ _ (fun c hc => ?_)
    rcases fmtYMD_mem hc with h | ⟨k, hk, h⟩
    · subst h; decide
    · subst h; exact (dChar_facts k hk).1
  rw [h1]
  have h2 : (fmtYMD y m d).filter (fun c => !(c = 'г' || c = '.')) = fmtYMD y m d := by
    refine List.filter_eq_self.mpr (fun c hc => ?_)
    rcases fmtYMD_mem hc with h | ⟨k, hk, h⟩
    · subst h; decide
    · subst h; exact (dChar_facts k hk).2.1
  rw [h2]
  have h3 : (fmtYMD y m d).filter allowChar = fmtYMD y m d := by
    refine List.filter_eq_self.mpr (fun c hc => ?_)
    rcases fmtYMD_mem hc with h | ⟨k, hk, h⟩
    · subst h; decide
    · subst h; exact (dChar_facts k hk).2.2.1
  rw [h3]
  refine tblFold_noop _ _ (fun c hc => ?_) (by decide)
  rcases fmtYMD_mem hc with h | ⟨k, hk, h⟩
  · subst h; decide
  · subst h; exact (dChar_facts k hk).2.2.2.1

/-- Every alternative of the `%d` directive leaves a suffix of the input. -/
theorem dayAlts_mem_rest {s : Str} {v : Nat} {r : Str}
    (h : (v, r) ∈ dayAlts s) : r = s.drop 1 ∨ r = s.drop 2 := by
  match s with
  | [] => cases h
  | [c₁] =>
    unfold dayAlts at h
    dsimp only at h
    split_ifs at h with hc
    · simp at h; exact Or.inl (by rw [h.2]; rfl)
    · cases h
  | c₁ :: c₂ :: rest =>
    unfold dayAlts at h
    dsimp only at h
    simp only [List.mem_append] at h
    rcases h with ((h | h) | h) | h <;> split_ifs at h <;> simp at h <;>
      first
        | exact Or.inr (by rw [h.2]; rfl)
        | exact Or.inl (by rw [h.2]; rfl)

/-- A literal directive fails when its character does not occur. -/
theorem litAlt_nil {ch : Char} {s : Str} (h : ∀ c ∈ s, c ≠ ch) : litAlt ch s = [] := by
  cases s with
  | nil => rfl
  | cons c cs =>
    unfold litAlt
    dsimp only
    rw [if_neg (h c (List.mem_cons_self c cs))]

/-- Pattern `"%d.%m.%Y"` cannot match an input without a period. -/
theorem matchDotted_none {s : Str} (hs : ∀ c ∈ s, c ≠ '.') : matchDotted s = none := by
  unfold matchDotted
  refine List.findSome?_eq_none_iff.mpr ?_
  rintro ⟨d, s₁⟩ hmem
  have hsub : ∀ c ∈ s₁, c ≠ '.' := by
    rcases dayAlts_mem_rest hmem with h | h <;> subst h <;>
      exact fun c hc => hs c (List.drop_subset _ _ hc)
  dsimp only
  rw [litAlt_nil hsub]
  rfl

/-- Pattern `"%d/%m/%Y"` cannot match an input without a slash. -/
theorem matchSlashed_none {s : Str} (hs : ∀ c ∈ s, c ≠ '/') : matchSlashed s = none := by
  unfold matchSlashed
  refine List.findSome?_eq_none_iff.mpr ?_
  rintro ⟨d, s₁⟩ hmem
  have hsub : ∀ c ∈ s₁, c ≠ '/' := by
    rcases dayAlts_mem_rest hmem with h | h <;> subst h <;>
      exact fun c hc => hs c (List.drop_subset _ _ hc)
  dsimp only
  rw [litAlt_nil hsub]
  rfl

/-- Pattern `"%d.%m'%y"` cannot match an input without a period either. -/
theorem matchApos_none {s : Str} (hs : ∀ c ∈ s, c ≠ '.') : matchApos s = none := by
  unfold matchApos
  refine List.findSome?_eq_none_iff.mpr ?_
  rintro ⟨d, s₁⟩ hmem
  have hsub : ∀ c ∈ s₁, c ≠ '.' := by
    rcases dayAlts_mem_rest hmem with h | h <;> subst h <;>
      exact fun c hc => hs c (List.drop_subset _ _ hc)
  dsimp only
  rw [litAlt_nil hsub]
  rfl

/-- Directive `%Y` reads back exactly the four digits `strftime` wrote. -/
theorem yearAlts_pad4 {y : Nat} (hy : y ≤ 9999) (rest : Str) :
    yearAlts (pad4 y ++ rest) = [(y, rest)] := by
  have e : pad4 y ++ rest = dChar (y / 1000 % 10) :: dChar (y / 100 % 10) ::
      dChar (y / 10 % 10) :: dChar (y % 10) :: rest := rfl
  rw [e]
  unfold yearAlts
  dsimp only
  rw [if_pos (by
    rw [(dChar_facts _ (Nat.mod_lt _ (by norm_num))).2.2.2.2.1,
      (dChar_facts _ (Nat.mod_lt _ (by norm_num))).2.2.2.2.1,
      (dChar_facts _ (Nat.mod_lt _ (by norm_num))).2.2.2.2.1,
      (dChar_facts _ (Nat.mod_lt _ (by norm_num))).2.2.2.2.1]
    rfl)]
  rw [(dChar_facts _ (Nat.mod_lt _ (by norm_num))).2.2.2.2.2.1,
    (dChar_facts _ (Nat.mod_lt _ (by norm_num))).2.2.2.2.2.1,
    (dChar_facts _ (Nat.mod_lt _ (by norm_num))).2.2.2.2.2.1,
    (dChar_facts _ (Nat.mod_lt _ (by norm_num))).2.2.2.2.2.1]
  have : 1000 * (y / 1000 % 10) + 100 * (y / 100 % 10) + 10 * (y / 10 % 10) + y % 10 = y := by
    omega
  rw [this]

/-- Directive `%m` reads back the zero-padded month as its first alternative. -/
theorem monthAlts_pad2 {m : Nat} (h1 : 1 ≤ m) (h2 : m ≤ 12) (rest : Str) :
    ∃ tl, monthAlts (pad2 m ++ rest) = (m, rest) :: tl := by
  interval_cases m <;> exact ⟨_, rfl⟩

/-- Directive `%d` reads back the zero-padded day as its first alternative. -/
theorem dayAlts_pad2 {d : Nat} (h1 : 1 ≤ d) (h2 : d ≤ 31) (rest : Str) :
    ∃ tl, dayAlts (pad2 d ++ rest) = (d, rest) :: tl := by
  interval_cases d <;> exact ⟨_, rfl⟩

/-- The ISO pattern `"%Y-%m-%d"` fully reparses a canonical date string. -/
theorem matchIso_canonical {y m d : Nat} (hy : y ≤ 9999) (hm1 : 1 ≤ m) (hm2 : m ≤ 12)
    (hd1 : 1 ≤ d) (hd2 : d ≤ 31) :
    matchIso (fmtYMD y m d) = some (y, m, d, []) := by
  obtain ⟨tlm, htlm⟩ := monthAlts_pad2 hm1 hm2 ('-' :: pad2 d)
  obtain ⟨tld, htld⟩ := dayAlts_pad2 hd1 hd2 ([] : Str)
  rw [List.append_nil] at htld
  have e : fmtYMD y m d = pad4 y ++ ('-' :: (pad2 m ++ '-' :: pad2 d)) := rfl
  unfold matchIso
  rw [e, yearAlts_pad4 hy]
  simp only [List.findSome?]
  simp only [litAlt]
  rw [htlm]
  simp only [List.findSome?]
  rw [htld]
  simp only [List.findSome?]

/-- Every month fits in at most 31 days. -/
theorem daysInMonth_le (y m : Nat) : daysInMonth y m ≤ 31 := by
  unfold daysInMonth
  split_ifs <;> omega

/-- Unpacking the `datetime` validity check. -/
theorem datetimeOk_bounds {y m d : Nat} (h : datetimeOk y m d = true) :
    1 ≤ y ∧ y ≤ 9999 ∧ 1 ≤ m ∧ m ≤ 12 ∧ 1 ≤ d ∧ d ≤ 31 := by
  unfold datetimeOk at h
  simp only [Bool.and_eq_true, decide_eq_true_eq] at h
  obtain ⟨⟨⟨⟨⟨h1, h2⟩, h3⟩, h4⟩, h5⟩, h6⟩ := h
  have hD := daysInMonth_le y m
  exact ⟨h1, h2, h3, h4, h5, by omega⟩

/-- The format list reparses a canonical date string to exactly its date:
the dotted and slashed patterns fail (a canonical string has no period or
slash), and the ISO pattern then wins. -/
theorem tryFormats_canonical {y m d : Nat} (hok : datetimeOk y m d = true) :
    tryFormats (fmtYMD y m d) = some (y, m, d) := by
  obtain ⟨hy1, hy2, hm1, hm2, hd1, hd2⟩ := datetimeOk_bounds hok
  have hnodot : ∀ c ∈ fmtYMD y m d, c ≠ '.' := by
    intro c hc
    rcases fmtYMD_mem hc with h | ⟨k, hk, h⟩
    · subst h; decide
    · subst h; exact (dChar_facts k hk).2.2.2.2.2.2.1
  have hnoslash : ∀ c ∈ fmtYMD y m d, c ≠ '/' := by
    intro c hc
    rcases fmtYMD_mem hc with h | ⟨k, hk, h⟩
    · subst h; decide
    · subst h; exact (dChar_facts k hk).2.2.2.2.2.2.2
  unfold tryFormats
  rw [matchDotted_none hnodot, matchSlashed_none hnoslash,
    matchIso_canonical hy2 hm1 hm2 hd1 hd2]
  unfold finishParse
  dsimp only
  rw [if_pos ⟨rfl, hok⟩]

/-- C7: `normalize_dob` is idempotent on canonical output — feeding any
non-sentinel result (a canonical `YYYY-MM-DD` string) back through
`normalize_dob` returns it unchanged. -/
theorem normalize_dob_idempotent_on_canonical (v : PyVal)
    (h : normalize_dob v ≠ []) :
    normalize_dob (.pstr (normalize_dob v)) = normalize_dob v := by
  rcases normalize_dob_shape v with he | ⟨y, m, d, hok, he⟩
  · exact absurd he h
  · rw [he]
    have hne : fmtYMD y m d ≠ [] := by
      intro hx
      exact List.noConfusion (by rw [← hx]; rfl : ([] : Str) = dChar (y / 1000 % 10) ::
        (dChar (y / 100 % 10) :: dChar (y / 10 % 10) :: dChar (y % 10) :: '-' ::
          (pad2 m ++ '-' :: pad2 d)))
    unfold normalize_dob
    rw [if_neg (by simp [pdIsna, pyEqEmptyStr, hne])]
    dsimp only [pyStr]
    rw [dobPre_canonical, tryFormats_canonical hok]

/-- C7 witness: the canonical output for the input `"1990-01-01"` is a
fixed point of `normalize_dob`. -/
theorem normalize_dob_idempotent_on_canonical_witness :
    normalize_dob (.pstr (normalize_dob (.pstr "1990-01-01".data))) =
      normalize_dob (.pstr "1990-01-01".data) :=
  normalize_dob_idempotent_on_canonical (.pstr "1990-01-01".data) (by decide)
